import Mathlib

set_option maxRecDepth 8000

/-!
Shallow embedding of the AQI (Air Quality Index) engine of `src/utils/aqi.py`.

Concentrations are modelled as rationals (`ℚ`), AQI indices as integers
(`ℤ`).  Python's `round` (round-half-to-even) is modelled by `pyRound`.
Python dictionaries are modelled as association lists in insertion order.
-/

namespace Aeris

/-- Python's built-in `round` on an exact rational: round half to even. -/
def pyRound (x : ℚ) : ℤ :=
  if x - ⌊x⌋ < 1/2 then ⌊x⌋
  else if 1/2 < x - ⌊x⌋ then ⌊x⌋ + 1
  else if ⌊x⌋ % 2 = 0 then ⌊x⌋ else ⌊x⌋ + 1

/-- One row of a breakpoint table: `(c_low, c_high, i_low, i_high)`. -/
structure Breakpoint where
  cLow : ℚ
  cHigh : ℚ
  iLow : ℤ
  iHigh : ℤ
deriving DecidableEq

/-- `PM25_BREAKPOINTS` from `src/utils/aqi.py`. -/
def PM25_BREAKPOINTS : List Breakpoint :=
  [⟨0, 12, 0, 50⟩, ⟨12.1, 35.4, 51, 100⟩, ⟨35.5, 55.4, 101, 150⟩,
   ⟨55.5, 150.4, 151, 200⟩, ⟨150.5, 250.4, 201, 300⟩, ⟨250.5, 500.4, 301, 500⟩]

/-- `PM10_BREAKPOINTS` from `src/utils/aqi.py`. -/
def PM10_BREAKPOINTS : List Breakpoint :=
  [⟨0, 54, 0, 50⟩, ⟨55, 154, 51, 100⟩, ⟨155, 254, 101, 150⟩,
   ⟨255, 354, 151, 200⟩, ⟨355, 424, 201, 300⟩, ⟨425, 604, 301, 500⟩]

/-- `O3_BREAKPOINTS` from `src/utils/aqi.py` (five rows only). -/
def O3_BREAKPOINTS : List Breakpoint :=
  [⟨0, 54, 0, 50⟩, ⟨55, 70, 51, 100⟩, ⟨71, 85, 101, 150⟩,
   ⟨86, 105, 151, 200⟩, ⟨106, 200, 201, 300⟩]

/-- `CO_BREAKPOINTS` from `src/utils/aqi.py`. -/
def CO_BREAKPOINTS : List Breakpoint :=
  [⟨0, 4.4, 0, 50⟩, ⟨4.5, 9.4, 51, 100⟩, ⟨9.5, 12.4, 101, 150⟩,
   ⟨12.5, 15.4, 151, 200⟩, ⟨15.5, 30.4, 201, 300⟩, ⟨30.5, 50.4, 301, 500⟩]

/-- `NO2_BREAKPOINTS` from `src/utils/aqi.py`. -/
def NO2_BREAKPOINTS : List Breakpoint :=
  [⟨0, 53, 0, 50⟩, ⟨54, 100, 51, 100⟩, ⟨101, 360, 101, 150⟩,
   ⟨361, 649, 151, 200⟩, ⟨650, 1249, 201, 300⟩, ⟨1250, 2049, 301, 500⟩]

/-- `SO2_BREAKPOINTS` from `src/utils/aqi.py`. -/
def SO2_BREAKPOINTS : List Breakpoint :=
  [⟨0, 35, 0, 50⟩, ⟨36, 75, 51, 100⟩, ⟨76, 185, 101, 150⟩,
   ⟨186, 304, 151, 200⟩, ⟨305, 604, 201, 300⟩, ⟨605, 1004, 301, 500⟩]

/-- Per-character lower-casing, the effect of Python's `str.lower()` on the
ASCII parameter keys this module deals with. -/
def strLower (s : String) : String := ⟨s.data.map Char.toLower⟩

/-- Per-character upper-casing, the effect of Python's `str.upper()` on ASCII. -/
def strUpper (s : String) : String := ⟨s.data.map Char.toUpper⟩

/-- `s.replace(onech, "")` for a one-character pattern: drop every occurrence
of that character. -/
def removeChar (c : Char) (s : String) : String := ⟨s.data.filter (· != c)⟩

/-- `parameter.lower().replace(".", "").replace("_", "")` — the key
normalisation performed by `get_breakpoints`. -/
def normalizeParam (p : String) : String :=
  removeChar '_' (removeChar '.' (strLower p))

/-- `get_breakpoints` from `src/utils/aqi.py`: the `breakpoint_map.get`
dictionary lookup on the normalised key. -/
def get_breakpoints (parameter : String) : Option (List Breakpoint) :=
  let p := normalizeParam parameter
  if p = "pm25" then some PM25_BREAKPOINTS
  else if p = "pm10" then some PM10_BREAKPOINTS
  else if p = "o3" then some O3_BREAKPOINTS
  else if p = "co" then some CO_BREAKPOINTS
  else if p = "no2" then some NO2_BREAKPOINTS
  else if p = "so2" then some SO2_BREAKPOINTS
  else none

/-- The EPA interpolation formula applied to one breakpoint row:
`((i_high - i_low) / (c_high - c_low)) * (concentration - c_low) + i_low`. -/
def interpAqi (c : ℚ) (bp : Breakpoint) : ℚ :=
  ((bp.iHigh : ℚ) - (bp.iLow : ℚ)) / (bp.cHigh - bp.cLow) * (c - bp.cLow) + (bp.iLow : ℚ)

/-- The `for c_low, c_high, i_low, i_high in breakpoints` scan of
`calculate_aqi`: first row whose inclusive range contains the concentration. -/
def findBreakpoint (c : ℚ) : List Breakpoint → Option Breakpoint
  | [] => none
  | bp :: rest =>
      if bp.cLow ≤ c ∧ c ≤ bp.cHigh then some bp else findBreakpoint c rest

/-- `calculate_aqi` from `src/utils/aqi.py`.  (The Python guard
`if not breakpoints: return None` fires exactly when the lookup misses,
since every table in the module is non-empty.) -/
def calculate_aqi (concentration : ℚ) (parameter : String) : Option ℤ :=
  match get_breakpoints parameter with
  | none => none
  | some breakpoints =>
      if concentration < 0 then some 0
      else
        match findBreakpoint concentration breakpoints with
        | some bp => some (pyRound (interpAqi concentration bp))
        | none => some 500

/-- The `AQICategory` enum of `src/utils/aqi.py`. -/
inductive AQICategory where
  | GOOD
  | MODERATE
  | UNHEALTHY_SENSITIVE
  | UNHEALTHY
  | VERY_UNHEALTHY
  | HAZARDOUS
deriving DecidableEq

/-- Enum field `label`. -/
def AQICategory.label : AQICategory → String
  | .GOOD => "Good"
  | .MODERATE => "Moderate"
  | .UNHEALTHY_SENSITIVE => "Unhealthy for Sensitive Groups"
  | .UNHEALTHY => "Unhealthy"
  | .VERY_UNHEALTHY => "Very Unhealthy"
  | .HAZARDOUS => "Hazardous"

/-- Enum field `color`. -/
def AQICategory.color : AQICategory → String
  | .GOOD => "#00E400"
  | .MODERATE => "#FFFF00"
  | .UNHEALTHY_SENSITIVE => "#FF7E00"
  | .UNHEALTHY => "#FF0000"
  | .VERY_UNHEALTHY => "#8F3F97"
  | .HAZARDOUS => "#7E0023"

/-- Enum field `aqi_low`. -/
def AQICategory.aqi_low : AQICategory → ℤ
  | .GOOD => 0
  | .MODERATE => 51
  | .UNHEALTHY_SENSITIVE => 101
  | .UNHEALTHY => 151
  | .VERY_UNHEALTHY => 201
  | .HAZARDOUS => 301

/-- Enum field `aqi_high`. -/
def AQICategory.aqi_high : AQICategory → ℤ
  | .GOOD => 50
  | .MODERATE => 100
  | .UNHEALTHY_SENSITIVE => 150
  | .UNHEALTHY => 200
  | .VERY_UNHEALTHY => 300
  | .HAZARDOUS => 500

/-- Python's `category.name` (the enum member name). -/
def AQICategory.pyName : AQICategory → String
  | .GOOD => "GOOD"
  | .MODERATE => "MODERATE"
  | .UNHEALTHY_SENSITIVE => "UNHEALTHY_SENSITIVE"
  | .UNHEALTHY => "UNHEALTHY"
  | .VERY_UNHEALTHY => "VERY_UNHEALTHY"
  | .HAZARDOUS => "HAZARDOUS"

/-- Iteration order `for category in AQICategory` (declaration order). -/
def allCategories : List AQICategory :=
  [.GOOD, .MODERATE, .UNHEALTHY_SENSITIVE, .UNHEALTHY, .VERY_UNHEALTHY, .HAZARDOUS]

/-- The `for category in AQICategory` scan of `get_aqi_category`. -/
def findCategory (aqi : ℤ) : List AQICategory → Option AQICategory
  | [] => none
  | cat :: rest =>
      if cat.aqi_low ≤ aqi ∧ aqi ≤ cat.aqi_high then some cat else findCategory aqi rest

/-- `get_aqi_category` from `src/utils/aqi.py`: first band whose inclusive
range contains the value, `HAZARDOUS` when none does. -/
def get_aqi_category (aqi : ℤ) : AQICategory :=
  (findCategory aqi allCategories).getD AQICategory.HAZARDOUS

/-- The dictionary returned by `get_aqi_description`. -/
structure AQIDescription where
  aqi : ℤ
  category : String
  color : String
  level : String
  health_message : String
deriving DecidableEq

/-- The `health_messages` dictionary of `get_aqi_description` (it covers all
six members, so the `.get` default is never taken). -/
def healthMessage : AQICategory → String
  | .GOOD => "Air quality is satisfactory, and air pollution poses little or no risk."
  | .MODERATE => "Air quality is acceptable. However, there may be a risk for some people who are unusually sensitive to air pollution."
  | .UNHEALTHY_SENSITIVE => "Members of sensitive groups may experience health effects. The general public is less likely to be affected."
  | .UNHEALTHY => "Some members of the general public may experience health effects; members of sensitive groups may experience more serious health effects."
  | .VERY_UNHEALTHY => "Health alert: The risk of health effects is increased for everyone."
  | .HAZARDOUS => "Health warning of emergency conditions: everyone is more likely to be affected."

/-- `get_aqi_description` from `src/utils/aqi.py`. -/
def get_aqi_description (aqi : ℤ) : AQIDescription :=
  let category := get_aqi_category aqi
  { aqi := aqi
    category := category.label
    color := category.color
    level := category.pyName
    health_message := healthMessage category }

/-- Loop body of `calculate_dominant_aqi`: state is
`(all_aqis, dominant_aqi, dominant_parameter)`. -/
def dominantStep (acc : List (String × ℤ) × ℤ × String) (m : String × ℚ) :
    List (String × ℤ) × ℤ × String :=
  match calculate_aqi m.2 m.1 with
  | none => acc
  | some aqi =>
      if acc.2.1 < aqi then (acc.1 ++ [(m.1, aqi)], aqi, m.1)
      else (acc.1 ++ [(m.1, aqi)], acc.2.1, acc.2.2)

/-- `calculate_dominant_aqi` from `src/utils/aqi.py`; the input dict is an
association list in insertion order. -/
def calculate_dominant_aqi (measurements : List (String × ℚ)) :
    ℤ × String × List (String × ℤ) :=
  let acc := measurements.foldl dominantStep ([], 0, "unknown")
  (acc.2.1, acc.2.2, acc.1)

/-- `format_parameter_name` from `src/utils/aqi.py`: `format_map.get` on the
lower-cased key, defaulting to `parameter.upper()`. -/
def format_parameter_name (parameter : String) : String :=
  let pl := strLower parameter
  let looked : Option String :=
    if pl = "pm25" then some "PM2.5"
    else if pl = "pm2.5" then some "PM2.5"
    else if pl = "pm10" then some "PM10"
    else if pl = "o3" then some "O₃"
    else if pl = "ozone" then some "O₃"
    else if pl = "co" then some "CO"
    else if pl = "no2" then some "NO₂"
    else if pl = "so2" then some "SO₂"
    else none
  looked.getD (strUpper parameter)

/-! ### Basic facts about `pyRound` -/

/-- `pyRound` lands on the floor or the floor plus one. -/
theorem pyRound_bounds (x : ℚ) : ⌊x⌋ ≤ pyRound x ∧ pyRound x ≤ ⌊x⌋ + 1 := by
  unfold pyRound
  split_ifs <;> omega

/-- Any integer below the argument is below the rounding. -/
theorem le_pyRound (a : ℤ) (x : ℚ) (h : (a : ℚ) ≤ x) : a ≤ pyRound x := by
  have h1 : a ≤ ⌊x⌋ := Int.le_floor.mpr h
  have h2 := pyRound_bounds x
  omega

/-- Any integer above the argument is above the rounding. -/
theorem pyRound_le (b : ℤ) (x : ℚ) (h : x ≤ (b : ℚ)) : pyRound x ≤ b := by
  have hfb : ⌊x⌋ ≤ b := by
    have := Int.floor_le_floor h
    simpa using this
  by_cases hlt : x - ⌊x⌋ < 1/2
  · unfold pyRound
    rw [if_pos hlt]
    exact hfb
  · have hhalf : (⌊x⌋ : ℚ) + 1/2 ≤ x := by
      have := not_lt.mp hlt
      linarith
    have hx1 : ⌊x⌋ < b := by
      rcases lt_or_eq_of_le hfb with hlt' | heq
      · exact hlt'
      · exfalso
        rw [heq] at hhalf
        linarith
    have h2 := pyRound_bounds x
    omega

/-- `pyRound` is monotone. -/
theorem pyRound_mono {x y : ℚ} (h : x ≤ y) : pyRound x ≤ pyRound y := by
  rcases lt_or_le ⌊x⌋ ⌊y⌋ with hf | hf
  · have hx := pyRound_bounds x
    have hy := pyRound_bounds y
    omega
  · have hf' : ⌊x⌋ = ⌊y⌋ := le_antisymm (Int.floor_le_floor h) hf
    unfold pyRound
    rw [hf']
    split_ifs <;> first | omega | linarith

/-! ### Basic facts about the interpolation formula -/

/-- Below a row's range the interpolated value is at least the row's `i_low`. -/
theorem interpAqi_ge {c : ℚ} {bp : Breakpoint} (hlt : bp.cLow < bp.cHigh)
    (hi : bp.iLow ≤ bp.iHigh) (hc : bp.cLow ≤ c) : (bp.iLow : ℚ) ≤ interpAqi c bp := by
  unfold interpAqi
  have hs : (0 : ℚ) ≤ ((bp.iHigh : ℚ) - (bp.iLow : ℚ)) / (bp.cHigh - bp.cLow) :=
    div_nonneg (by exact_mod_cast sub_nonneg.mpr hi) (by linarith)
  have := mul_nonneg hs (sub_nonneg.mpr hc)
  linarith

/-- Within a row's range the interpolated value is at most the row's `i_high`. -/
theorem interpAqi_le {c : ℚ} {bp : Breakpoint} (hlt : bp.cLow < bp.cHigh)
    (hi : bp.iLow ≤ bp.iHigh) (hc : c ≤ bp.cHigh) : interpAqi c bp ≤ (bp.iHigh : ℚ) := by
  unfold interpAqi
  have hne : bp.cHigh - bp.cLow ≠ 0 := sub_ne_zero.mpr (ne_of_gt hlt)
  have hs : (0 : ℚ) ≤ ((bp.iHigh : ℚ) - (bp.iLow : ℚ)) / (bp.cHigh - bp.cLow) :=
    div_nonneg (by exact_mod_cast sub_nonneg.mpr hi) (by linarith)
  have h1 : ((bp.iHigh : ℚ) - (bp.iLow : ℚ)) / (bp.cHigh - bp.cLow) * (c - bp.cLow) ≤
      ((bp.iHigh : ℚ) - (bp.iLow : ℚ)) / (bp.cHigh - bp.cLow) * (bp.cHigh - bp.cLow) :=
    mul_le_mul_of_nonneg_left (by linarith) hs
  have h2 : ((bp.iHigh : ℚ) - (bp.iLow : ℚ)) / (bp.cHigh - bp.cLow) * (bp.cHigh - bp.cLow) =
      (bp.iHigh : ℚ) - (bp.iLow : ℚ) := div_mul_cancel₀ _ hne
  linarith

/-- The interpolation is monotone in the concentration on a row with
non-decreasing index range. -/
theorem interpAqi_mono {c₁ c₂ : ℚ} {bp : Breakpoint} (hlt : bp.cLow < bp.cHigh)
    (hi : bp.iLow ≤ bp.iHigh) (h : c₁ ≤ c₂) : interpAqi c₁ bp ≤ interpAqi c₂ bp := by
  unfold interpAqi
  have hs : (0 : ℚ) ≤ ((bp.iHigh : ℚ) - (bp.iLow : ℚ)) / (bp.cHigh - bp.cLow) :=
    div_nonneg (by exact_mod_cast sub_nonneg.mpr hi) (by linarith)
  have := mul_le_mul_of_nonneg_left (sub_le_sub_right h bp.cLow) hs
  linarith

/-- Rounded interpolation stays inside the row's index range. -/
theorem pyRound_interp_bounds {c : ℚ} {bp : Breakpoint} (hlt : bp.cLow < bp.cHigh)
    (hi : bp.iLow ≤ bp.iHigh) (hcl : bp.cLow ≤ c) (hch : c ≤ bp.cHigh) :
    bp.iLow ≤ pyRound (interpAqi c bp) ∧ pyRound (interpAqi c bp) ≤ bp.iHigh :=
  ⟨le_pyRound _ _ (interpAqi_ge hlt hi hcl), pyRound_le _ _ (interpAqi_le hlt hi hch)⟩

/-! ### Facts about the breakpoint scan -/

/-- A found row belongs to the table and its range contains the concentration. -/
theorem findBreakpoint_mem {c : ℚ} {bps : List Breakpoint} {bp : Breakpoint}
    (h : findBreakpoint c bps = some bp) : bp ∈ bps ∧ bp.cLow ≤ c ∧ c ≤ bp.cHigh := by
  induction bps with
  | nil => simp [findBreakpoint] at h
  | cons hd tl ih =>
      rw [findBreakpoint] at h
      split_ifs at h with hcond
      · cases h
        exact ⟨List.mem_cons_self _ _, hcond⟩
      · obtain ⟨hmem, hrest⟩ := ih h
        exact ⟨List.mem_cons_of_mem _ hmem, hrest⟩

/-- If some row's range contains the concentration, the scan finds a row. -/
theorem findBreakpoint_isSome {c : ℚ} {bps : List Breakpoint}
    (h : ∃ bp ∈ bps, bp.cLow ≤ c ∧ c ≤ bp.cHigh) :
    ∃ bp, findBreakpoint c bps = some bp := by
  induction bps with
  | nil => simp at h
  | cons hd tl ih =>
      rw [findBreakpoint]
      split_ifs with hcond
      · exact ⟨hd, rfl⟩
      · apply ih
        obtain ⟨bp, hmem, hbp⟩ := h
        rcases List.mem_cons.mp hmem with heq | hmem'
        · exact absurd (heq ▸ hbp) hcond
        · exact ⟨bp, hmem', hbp⟩

/-- A concentration above every row's `c_high` is found by no row. -/
theorem findBreakpoint_none {c : ℚ} {bps : List Breakpoint}
    (h : ∀ bp ∈ bps, bp.cHigh < c) : findBreakpoint c bps = none := by
  induction bps with
  | nil => rfl
  | cons hd tl ih =>
      rw [findBreakpoint]
      have hhd := h hd (List.mem_cons_self _ _)
      rw [if_neg (by intro hcon; linarith [hcon.2])]
      exact ih fun bp hbp => h bp (List.mem_cons_of_mem _ hbp)

/-- Row ordering relation of a breakpoint table: disjoint ascending
concentration ranges and non-decreasing index ranges. -/
def RowsOrdered (a b : Breakpoint) : Prop := a.cHigh < b.cLow ∧ a.iHigh ≤ b.iLow

instance : DecidableRel RowsOrdered := fun a b => by
  unfold RowsOrdered
  infer_instance

/-- On a pairwise-ordered table, the rows found for two ordered concentrations
are equal or strictly ordered. -/
theorem findBreakpoint_order {c₁ c₂ : ℚ} {bps : List Breakpoint} {bp₁ bp₂ : Breakpoint}
    (hs : List.Pairwise RowsOrdered bps)
    (h₁ : findBreakpoint c₁ bps = some bp₁) (h₂ : findBreakpoint c₂ bps = some bp₂)
    (h₁₂ : c₁ ≤ c₂) : bp₁ = bp₂ ∨ RowsOrdered bp₁ bp₂ := by
  induction bps with
  | nil => simp [findBreakpoint] at h₁
  | cons hd tl ih =>
      rw [List.pairwise_cons] at hs
      rw [findBreakpoint] at h₁ h₂
      split_ifs at h₁ h₂ with hcond₁ hcond₂ hcond₂
      · cases h₁; cases h₂; exact Or.inl rfl
      · cases h₁
        have hmem₂ := (findBreakpoint_mem h₂).1
        exact Or.inr (hs.1 bp₂ hmem₂)
      · cases h₂
        exfalso
        have hmem₁ := findBreakpoint_mem h₁
        have horder := hs.1 bp₁ hmem₁.1
        have := hmem₁.2.1
        have := hcond₂.2
        have := horder.1
        linarith
      · exact ih hs.2 h₁ h₂

/-! ### Well-formedness of the six concrete tables -/

/-- The last row's `c_high`, i.e. the table's saturation ceiling. -/
def finalHigh (bps : List Breakpoint) : ℚ := ((bps.getLast?).map Breakpoint.cHigh).getD 0

/-- Well-formedness enjoyed by each of the six tables of the module:
every row has a non-degenerate non-negative concentration range, an index
range inside `[0, 500]`, and `c_high` at most the saturation ceiling; rows are
pairwise ordered. -/
def GoodTable (bps : List Breakpoint) : Prop :=
  (∀ bp ∈ bps, 0 ≤ bp.cLow ∧ bp.cLow < bp.cHigh ∧ 0 ≤ bp.iLow ∧ bp.iLow ≤ bp.iHigh ∧
    bp.iHigh ≤ 500 ∧ bp.cHigh ≤ finalHigh bps) ∧
  List.Pairwise RowsOrdered bps ∧ 0 ≤ finalHigh bps

instance (bps : List Breakpoint) : Decidable (GoodTable bps) := by
  unfold GoodTable
  infer_instance

theorem goodTable_pm25 : GoodTable PM25_BREAKPOINTS :=
  of_decide_eq_true (by with_unfolding_all rfl)

theorem goodTable_pm10 : GoodTable PM10_BREAKPOINTS :=
  of_decide_eq_true (by with_unfolding_all rfl)

theorem goodTable_o3 : GoodTable O3_BREAKPOINTS :=
  of_decide_eq_true (by with_unfolding_all rfl)

theorem goodTable_co : GoodTable CO_BREAKPOINTS :=
  of_decide_eq_true (by with_unfolding_all rfl)

theorem goodTable_no2 : GoodTable NO2_BREAKPOINTS :=
  of_decide_eq_true (by with_unfolding_all rfl)

theorem goodTable_so2 : GoodTable SO2_BREAKPOINTS :=
  of_decide_eq_true (by with_unfolding_all rfl)

/-- A successful lookup returns one of the six module-level tables. -/
theorem get_breakpoints_cases {p : String} {bps : List Breakpoint}
    (h : get_breakpoints p = some bps) :
    bps = PM25_BREAKPOINTS ∨ bps = PM10_BREAKPOINTS ∨ bps = O3_BREAKPOINTS ∨
    bps = CO_BREAKPOINTS ∨ bps = NO2_BREAKPOINTS ∨ bps = SO2_BREAKPOINTS := by
  simp only [get_breakpoints] at h
  split_ifs at h <;> simp_all

/-- Every table the lookup can return is well-formed. -/
theorem goodTable_of_get_breakpoints {p : String} {bps : List Breakpoint}
    (h : get_breakpoints p = some bps) : GoodTable bps := by
  rcases get_breakpoints_cases h with h' | h' | h' | h' | h' | h' <;> subst h'
  · exact goodTable_pm25
  · exact goodTable_pm10
  · exact goodTable_o3
  · exact goodTable_co
  · exact goodTable_no2
  · exact goodTable_so2

/-! ### Shape lemmas for `calculate_aqi` -/

/-- Unfolding of `calculate_aqi` once the table lookup succeeded. -/
theorem calculate_aqi_eq {p : String} {bps : List Breakpoint}
    (h : get_breakpoints p = some bps) (c : ℚ) :
    calculate_aqi c p =
      if c < 0 then some 0
      else
        match findBreakpoint c bps with
        | some bp => some (pyRound (interpAqi c bp))
        | none => some 500 := by
  unfold calculate_aqi
  rw [h]

/-- A recognised parameter always gets a score. -/
theorem calculate_aqi_isSome {p : String} {bps : List Breakpoint}
    (h : get_breakpoints p = some bps) (c : ℚ) : ∃ n, calculate_aqi c p = some n := by
  rw [calculate_aqi_eq h c]
  split_ifs
  · exact ⟨0, rfl⟩
  · cases hfb : findBreakpoint c bps <;> simp

/-- Every score produced by `calculate_aqi` lies in `[0, 500]`. -/
theorem calculate_aqi_bounds {c : ℚ} {p : String} {n : ℤ}
    (h : calculate_aqi c p = some n) : 0 ≤ n ∧ n ≤ 500 := by
  cases hg : get_breakpoints p with
  | none => rw [calculate_aqi, hg] at h; cases h
  | some bps =>
      have hgt := goodTable_of_get_breakpoints hg
      rw [calculate_aqi_eq hg c] at h
      split_ifs at h with hneg
      · injection h with h
        omega
      · cases hfb : findBreakpoint c bps with
        | none =>
            rw [hfb] at h
            injection h with h
            omega
        | some bp =>
            rw [hfb] at h
            injection h with h
            obtain ⟨hmem, hcl, hch⟩ := findBreakpoint_mem hfb
            obtain ⟨hcl0, hlt, hil0, hile, hih500, _⟩ := hgt.1 bp hmem
            have hb := pyRound_interp_bounds hlt hile hcl hch
            omega

/-! ### Facts about the category scan -/

/-- If no band's range contains the value, the category scan finds nothing. -/
theorem findCategory_none {n : ℤ} {cats : List AQICategory}
    (h : ∀ cat ∈ cats, ¬(cat.aqi_low ≤ n ∧ n ≤ cat.aqi_high)) :
    findCategory n cats = none := by
  induction cats with
  | nil => rfl
  | cons hd tl ih =>
      rw [findCategory, if_neg (h hd (List.mem_cons_self _ _))]
      exact ih fun c hc => h c (List.mem_cons_of_mem _ hc)

/-- Above 500 every band test fails, so the scan falls back to `HAZARDOUS`. -/
theorem get_aqi_category_overflow {n : ℤ} (hn : 500 < n) :
    get_aqi_category n = AQICategory.HAZARDOUS := by
  rw [get_aqi_category, findCategory_none]
  · rfl
  · intro cat hcat
    simp only [allCategories, List.mem_cons, List.not_mem_nil, or_false] at hcat
    rcases hcat with h | h | h | h | h | h <;> subst h <;>
      simp only [AQICategory.aqi_low, AQICategory.aqi_high] <;> omega

/-- Below 0 every band test fails, so the scan falls back to `HAZARDOUS`. -/
theorem get_aqi_category_negative {n : ℤ} (hn : n < 0) :
    get_aqi_category n = AQICategory.HAZARDOUS := by
  rw [get_aqi_category, findCategory_none]
  · rfl
  · intro cat hcat
    simp only [allCategories, List.mem_cons, List.not_mem_nil, or_false] at hcat
    rcases hcat with h | h | h | h | h | h <;> subst h <;>
      simp only [AQICategory.aqi_low, AQICategory.aqi_high] <;> omega

/-- Two bands containing the same value are the same band. -/
theorem category_band_unique {n : ℤ} {c d : AQICategory}
    (hc1 : c.aqi_low ≤ n) (hc2 : n ≤ c.aqi_high)
    (hd1 : d.aqi_low ≤ n) (hd2 : n ≤ d.aqi_high) : c = d := by
  cases c <;> cases d <;>
    simp_all only [AQICategory.aqi_low, AQICategory.aqi_high] <;> omega

/-- Every value of `[0, 500]` lies in some band. -/
theorem category_band_exists {n : ℤ} (h0 : 0 ≤ n) (h500 : n ≤ 500) :
    ∃ cat : AQICategory, cat.aqi_low ≤ n ∧ n ≤ cat.aqi_high := by
  by_cases h1 : n ≤ 50
  · exact ⟨.GOOD, by simp only [AQICategory.aqi_low]; omega,
      by simp only [AQICategory.aqi_high]; omega⟩
  by_cases h2 : n ≤ 100
  · exact ⟨.MODERATE, by simp only [AQICategory.aqi_low]; omega,
      by simp only [AQICategory.aqi_high]; omega⟩
  by_cases h3 : n ≤ 150
  · exact ⟨.UNHEALTHY_SENSITIVE, by simp only [AQICategory.aqi_low]; omega,
      by simp only [AQICategory.aqi_high]; omega⟩
  by_cases h4 : n ≤ 200
  · exact ⟨.UNHEALTHY, by simp only [AQICategory.aqi_low]; omega,
      by simp only [AQICategory.aqi_high]; omega⟩
  by_cases h5 : n ≤ 300
  · exact ⟨.VERY_UNHEALTHY, by simp only [AQICategory.aqi_low]; omega,
      by simp only [AQICategory.aqi_high]; omega⟩
  · exact ⟨.HAZARDOUS, by simp only [AQICategory.aqi_low]; omega,
      by simp only [AQICategory.aqi_high]; omega⟩

/-! ### Covered concentrations and the supported-key set -/

/-- Normalised keys that resolve to a table. -/
def supportedKeys : List String := ["pm25", "pm10", "o3", "co", "no2", "so2"]

/-- The lookup misses exactly when the normalised key is unsupported. -/
theorem get_breakpoints_none_iff (p : String) :
    get_breakpoints p = none ↔ normalizeParam p ∉ supportedKeys := by
  simp only [get_breakpoints, supportedKeys]
  split_ifs <;> simp_all

/-- A concentration the table covers: inside some row's inclusive range, or
strictly above every row's `c_high`. -/
def CoveredConc (bps : List Breakpoint) (c : ℚ) : Prop :=
  (∃ bp ∈ bps, bp.cLow ≤ c ∧ c ≤ bp.cHigh) ∨ (∀ bp ∈ bps, bp.cHigh < c)

instance (bps : List Breakpoint) (c : ℚ) : Decidable (CoveredConc bps c) := by
  unfold CoveredConc
  infer_instance

/-! ### Facts about the dominant-pollutant fold -/

/-- `dominantStep` on an unrecognised entry leaves the state unchanged. -/
theorem dominantStep_none {st : List (String × ℤ) × ℤ × String} {m : String × ℚ}
    (h : calculate_aqi m.2 m.1 = none) : dominantStep st m = st := by
  unfold dominantStep
  rw [h]

/-- `dominantStep` on a scored entry appends the score and updates the
running maximum when strictly exceeded. -/
theorem dominantStep_some {st : List (String × ℤ) × ℤ × String} {m : String × ℚ} {a : ℤ}
    (h : calculate_aqi m.2 m.1 = some a) :
    dominantStep st m =
      if st.2.1 < a then (st.1 ++ [(m.1, a)], a, m.1)
      else (st.1 ++ [(m.1, a)], st.2.1, st.2.2) := by
  unfold dominantStep
  rw [h]

/-- The `all_aqis` component of the fold collects exactly the successfully
scored entries, in order. -/
theorem dominant_foldl_all (ms : List (String × ℚ)) (st : List (String × ℤ) × ℤ × String) :
    (ms.foldl dominantStep st).1 =
      st.1 ++ ms.filterMap (fun m => (calculate_aqi m.2 m.1).map (fun a => (m.1, a))) := by
  induction ms generalizing st with
  | nil => simp
  | cons hd tl ih =>
      rw [List.foldl_cons, ih]
      cases hca : calculate_aqi hd.2 hd.1 with
      | none => simp [dominantStep, hca]
      | some a =>
          simp only [dominantStep, hca, List.filterMap_cons, Option.map_some']
          split_ifs <;> simp

/-- Invariant of the dominant fold: the tracked maximum bounds every collected
score, is non-negative, equals zero only with the `"unknown"` sentinel, and
when positive is realised by the tracked parameter at the first entry of
`all_aqis` attaining it — every earlier entry scores strictly below it. -/
theorem dominant_foldl_invariant (ms : List (String × ℚ))
    (st : List (String × ℤ) × ℤ × String)
    (hst : (∀ pa ∈ st.1, 0 ≤ pa.2 ∧ pa.2 ≤ st.2.1) ∧ 0 ≤ st.2.1 ∧
      (st.2.1 = 0 → st.2.2 = "unknown") ∧
      (0 < st.2.1 → ∃ l₁ l₂, st.1 = l₁ ++ (st.2.2, st.2.1) :: l₂ ∧
        ∀ pa ∈ l₁, pa.2 < st.2.1)) :
    (∀ pa ∈ (ms.foldl dominantStep st).1,
        0 ≤ pa.2 ∧ pa.2 ≤ (ms.foldl dominantStep st).2.1) ∧
    0 ≤ (ms.foldl dominantStep st).2.1 ∧
    ((ms.foldl dominantStep st).2.1 = 0 → (ms.foldl dominantStep st).2.2 = "unknown") ∧
    (0 < (ms.foldl dominantStep st).2.1 →
      ∃ l₁ l₂, (ms.foldl dominantStep st).1 =
          l₁ ++ ((ms.foldl dominantStep st).2.2, (ms.foldl dominantStep st).2.1) :: l₂ ∧
        ∀ pa ∈ l₁, pa.2 < (ms.foldl dominantStep st).2.1) := by
  induction ms generalizing st with
  | nil => exact hst
  | cons hd tl ih =>
      rw [List.foldl_cons]
      apply ih
      obtain ⟨hall, hnn, hzero, hpos⟩ := hst
      cases hca : calculate_aqi hd.2 hd.1 with
      | none =>
          rw [dominantStep_none hca]
          exact ⟨hall, hnn, hzero, hpos⟩
      | some a =>
          rw [dominantStep_some hca]
          have ha := calculate_aqi_bounds hca
          split_ifs with hlt
          · dsimp only
            refine ⟨?_, ?_, ?_, ?_⟩
            · intro pa hpa
              rcases List.mem_append.mp hpa with hmem | hmem
              · have := hall pa hmem
                constructor
                · exact this.1
                · exact le_trans this.2 (le_of_lt hlt)
              · simp only [List.mem_singleton] at hmem
                subst hmem
                exact ⟨ha.1, le_refl _⟩
            · exact ha.1
            · intro h0
              exact absurd h0 (by omega)
            · intro _
              refine ⟨st.1, [], rfl, ?_⟩
              intro pa hpa
              exact lt_of_le_of_lt (hall pa hpa).2 hlt
          · dsimp only
            refine ⟨?_, hnn, hzero, ?_⟩
            · intro pa hpa
              rcases List.mem_append.mp hpa with hmem | hmem
              · exact hall pa hmem
              · simp only [List.mem_singleton] at hmem
                subst hmem
                exact ⟨ha.1, not_lt.mp hlt⟩
            · intro h0
              obtain ⟨l₁, l₂, heq, hbelow⟩ := hpos h0
              refine ⟨l₁, l₂ ++ [(hd.1, a)], ?_, hbelow⟩
              rw [heq]
              simp

/-- The `"pm25"` lookup resolves to the PM2.5 table. -/
theorem get_breakpoints_pm25 : get_breakpoints "pm25" = some PM25_BREAKPOINTS := by
  have h : normalizeParam "pm25" = "pm25" := by decide
  simp [get_breakpoints, h]

/-! ### Claim theorems -/

/-- C1 (counterexample): monotonicity fails as stated — 12.05 sits strictly
between the first row's `c_high` (12.0) and the second row's `c_low` (12.1)
of `PM25_BREAKPOINTS`, matches no row, and scores 500, while the larger
concentration 12.1 scores 51. -/
theorem C1_counterexample :
    (0 : ℚ) ≤ 12.05 ∧ (12.05 : ℚ) ≤ 12.1 ∧
    calculate_aqi 12.05 "pm25" = some 500 ∧
    calculate_aqi 12.1 "pm25" = some 51 ∧ ¬ (500 : ℤ) ≤ 51 :=
  ⟨of_decide_eq_true (by with_unfolding_all rfl),
   of_decide_eq_true (by with_unfolding_all rfl),
   of_decide_eq_true (by with_unfolding_all rfl),
   of_decide_eq_true (by with_unfolding_all rfl),
   by norm_num⟩

/-- C1 (amended): for every key that resolves to a table, `calculate_aqi` is
monotonically non-decreasing over the non-negative concentrations the table
covers (inside some row's inclusive range, or above every row's `c_high`);
gap concentrations strictly between adjacent rows are excluded, since the
code scores them 500. -/
theorem C1_amended_monotone (p : String) (bps : List Breakpoint) (c₁ c₂ : ℚ)
    (hg : get_breakpoints p = some bps) (h0 : 0 ≤ c₁) (h12 : c₁ ≤ c₂)
    (hc₁ : CoveredConc bps c₁) (hc₂ : CoveredConc bps c₂) :
    ∃ n₁ n₂, calculate_aqi c₁ p = some n₁ ∧ calculate_aqi c₂ p = some n₂ ∧ n₁ ≤ n₂ := by
  have hgt := goodTable_of_get_breakpoints hg
  have h0₂ : 0 ≤ c₂ := le_trans h0 h12
  rw [calculate_aqi_eq hg c₁, calculate_aqi_eq hg c₂,
    if_neg (not_lt.mpr h0), if_neg (not_lt.mpr h0₂)]
  rcases hc₁ with hin₁ | habove₁
  · obtain ⟨bp₁, hfb₁⟩ := findBreakpoint_isSome hin₁
    obtain ⟨hm₁, hl₁, hh₁⟩ := findBreakpoint_mem hfb₁
    obtain ⟨_, hlt₁, _, hi₁, hih₁, _⟩ := hgt.1 bp₁ hm₁
    rcases hc₂ with hin₂ | habove₂
    · obtain ⟨bp₂, hfb₂⟩ := findBreakpoint_isSome hin₂
      obtain ⟨hm₂, hl₂, hh₂⟩ := findBreakpoint_mem hfb₂
      obtain ⟨_, hlt₂, _, hi₂, _, _⟩ := hgt.1 bp₂ hm₂
      rw [hfb₁, hfb₂]
      refine ⟨_, _, rfl, rfl, ?_⟩
      rcases findBreakpoint_order hgt.2.1 hfb₁ hfb₂ h12 with heq | hord
      · subst heq
        exact pyRound_mono (interpAqi_mono hlt₁ hi₁ h12)
      · have hb₁ := pyRound_le bp₁.iHigh _ (interpAqi_le hlt₁ hi₁ hh₁)
        have hb₂ := le_pyRound bp₂.iLow _ (interpAqi_ge hlt₂ hi₂ hl₂)
        have := hord.2
        omega
    · rw [hfb₁, findBreakpoint_none habove₂]
      refine ⟨_, 500, rfl, rfl, ?_⟩
      have := pyRound_le bp₁.iHigh _ (interpAqi_le hlt₁ hi₁ hh₁)
      omega
  · rcases hc₂ with hin₂ | habove₂
    · exfalso
      obtain ⟨bp, hm, hl, hh⟩ := hin₂
      have := habove₁ bp hm
      linarith
    · rw [findBreakpoint_none habove₁, findBreakpoint_none habove₂]
      exact ⟨500, 500, rfl, rfl, le_refl _⟩

/-- C1 witness: the amended monotonicity at the concrete pair 10 ≤ 100 for
`"pm25"`. -/
theorem C1_witness :
    ∃ n₁ n₂, calculate_aqi 10 "pm25" = some n₁ ∧
      calculate_aqi 100 "pm25" = some n₂ ∧ n₁ ≤ n₂ :=
  C1_amended_monotone "pm25" PM25_BREAKPOINTS 10 100
    get_breakpoints_pm25 (by norm_num) (by norm_num)
    (of_decide_eq_true (by with_unfolding_all rfl))
    (of_decide_eq_true (by with_unfolding_all rfl))

/-- C2 (counterexample): `{"pm25": 0.0}` has a recognised key, yet the
returned dominant parameter is the sentinel `"unknown"`, which is not a key
of the mapping — the `aqi > dominant_aqi` guard never fires when every
recognised entry scores 0. -/
theorem C2_counterexample :
    (calculate_aqi 0 "pm25").isSome = true ∧
    calculate_dominant_aqi [("pm25", (0 : ℚ))] = (0, "unknown", [("pm25", 0)]) ∧
    "unknown" ∉ (["pm25"] : List String) :=
  ⟨of_decide_eq_true (by with_unfolding_all rfl),
   of_decide_eq_true (by with_unfolding_all rfl),
   by decide⟩

/-- C2 (amended): the dominant index bounds every entry of the all-indices
map and is non-negative; it is 0 exactly with the `"unknown"` sentinel (so
the sentinel also appears when every recognised entry scores 0), and when
positive the dominant parameter is the first-encountered key attaining the
maximum: the all-indices map splits as `l₁ ++ (param, dominant) :: l₂` with
every entry of `l₁` scoring strictly below the dominant index. -/
theorem C2_amended_dominant (ms : List (String × ℚ)) :
    (∀ pa ∈ (calculate_dominant_aqi ms).2.2,
        0 ≤ pa.2 ∧ pa.2 ≤ (calculate_dominant_aqi ms).1) ∧
    0 ≤ (calculate_dominant_aqi ms).1 ∧
    ((calculate_dominant_aqi ms).1 = 0 → (calculate_dominant_aqi ms).2.1 = "unknown") ∧
    (0 < (calculate_dominant_aqi ms).1 →
      ∃ l₁ l₂, (calculate_dominant_aqi ms).2.2 =
          l₁ ++ ((calculate_dominant_aqi ms).2.1, (calculate_dominant_aqi ms).1) :: l₂ ∧
        ∀ pa ∈ l₁, pa.2 < (calculate_dominant_aqi ms).1) := by
  have h := dominant_foldl_invariant ms ([], 0, "unknown")
    ⟨by simp, le_refl 0, fun _ => rfl, fun hcon => absurd hcon (by norm_num)⟩
  unfold calculate_dominant_aqi
  dsimp only
  exact h

/-- C2 witness: the amended claim at the one-entry mapping `{"pm25": 100}`,
whose score is positive. -/
theorem C2_witness :
    0 < (calculate_dominant_aqi [("pm25", (100 : ℚ))]).1 ∧
    ∃ l₁ l₂, (calculate_dominant_aqi [("pm25", (100 : ℚ))]).2.2 =
        l₁ ++ ((calculate_dominant_aqi [("pm25", (100 : ℚ))]).2.1,
          (calculate_dominant_aqi [("pm25", (100 : ℚ))]).1) :: l₂ ∧
      ∀ pa ∈ l₁, pa.2 < (calculate_dominant_aqi [("pm25", (100 : ℚ))]).1 := by
  have h0 : 0 < (calculate_dominant_aqi [("pm25", (100 : ℚ))]).1 :=
    of_decide_eq_true (by with_unfolding_all rfl)
  exact ⟨h0, (C2_amended_dominant [("pm25", (100 : ℚ))]).2.2.2 h0⟩

/-- C3: for every key whose lookup succeeds (the six known pollutants) and
every non-negative concentration, `calculate_aqi` returns a defined integer
in `[0, 500]`. -/
theorem C3_aqi_total_in_range (c : ℚ) (p : String)
    (hp : (get_breakpoints p).isSome = true) (_hc : 0 ≤ c) :
    ∃ n, calculate_aqi c p = some n ∧ 0 ≤ n ∧ n ≤ 500 := by
  obtain ⟨bps, hg⟩ := Option.isSome_iff_exists.mp hp
  obtain ⟨n, hn⟩ := calculate_aqi_isSome hg c
  exact ⟨n, hn, (calculate_aqi_bounds hn).1, (calculate_aqi_bounds hn).2⟩

/-- C3 witness: the range statement at concentration 7 for `"pm25"`. -/
theorem C3_witness :
    (get_breakpoints "pm25").isSome = true ∧ (0 : ℚ) ≤ 7 ∧
    ∃ n, calculate_aqi 7 "pm25" = some n ∧ 0 ≤ n ∧ n ≤ 500 :=
  ⟨by rw [get_breakpoints_pm25]; rfl, by norm_num,
   C3_aqi_total_in_range 7 "pm25" (by rw [get_breakpoints_pm25]; rfl) (by norm_num)⟩

/-- C4: the six bands have exact contiguous boundaries — 50 is GOOD, 51 and
100 MODERATE, 101 UNHEALTHY_SENSITIVE — every integer of `[0, 500]` lies in
exactly one band, and every index above 500 falls back to HAZARDOUS. -/
theorem C4_category_partition :
    get_aqi_category 50 = AQICategory.GOOD ∧
    get_aqi_category 51 = AQICategory.MODERATE ∧
    get_aqi_category 100 = AQICategory.MODERATE ∧
    get_aqi_category 101 = AQICategory.UNHEALTHY_SENSITIVE ∧
    (∀ n : ℤ, 0 ≤ n → n ≤ 500 →
      ∃! cat : AQICategory, cat.aqi_low ≤ n ∧ n ≤ cat.aqi_high) ∧
    (∀ n : ℤ, 500 < n → get_aqi_category n = AQICategory.HAZARDOUS) := by
  refine ⟨by decide, by decide, by decide, by decide, ?_, ?_⟩
  · intro n h0 h500
    obtain ⟨cat, hcat⟩ := category_band_exists h0 h500
    exact ⟨cat, hcat, fun d hd => category_band_unique hd.1 hd.2 hcat.1 hcat.2⟩
  · intro n hn
    exact get_aqi_category_overflow hn

/-- C4 witness: unique band at 250 and the overflow fallback at 501. -/
theorem C4_witness :
    (∃! cat : AQICategory, cat.aqi_low ≤ (250 : ℤ) ∧ (250 : ℤ) ≤ cat.aqi_high) ∧
    get_aqi_category 501 = AQICategory.HAZARDOUS :=
  ⟨C4_category_partition.2.2.2.2.1 250 (by norm_num) (by norm_num),
   C4_category_partition.2.2.2.2.2 501 (by norm_num)⟩

/-- C5: for every key that resolves to a table, negative concentrations
score 0 and concentrations strictly above the table's final `c_high` score
the saturation index 500; neither case is an error. -/
theorem C5_negative_zero_and_saturation (p : String) (bps : List Breakpoint)
    (h : get_breakpoints p = some bps) :
    (∀ c : ℚ, c < 0 → calculate_aqi c p = some 0) ∧
    (∀ c : ℚ, finalHigh bps < c → calculate_aqi c p = some 500) := by
  have hgt := goodTable_of_get_breakpoints h
  constructor
  · intro c hc
    rw [calculate_aqi_eq h c, if_pos hc]
  · intro c hc
    have h0f : (0 : ℚ) ≤ finalHigh bps := hgt.2.2
    have hnneg : ¬ c < 0 := by linarith
    rw [calculate_aqi_eq h c, if_neg hnneg, findBreakpoint_none]
    intro bp hbp
    exact lt_of_le_of_lt (hgt.1 bp hbp).2.2.2.2.2 hc

/-- C5 witness: scores at −5 and 1000 for `"pm25"`. -/
theorem C5_witness :
    get_breakpoints "pm25" = some PM25_BREAKPOINTS ∧
    ((-5 : ℚ) < 0 ∧ calculate_aqi (-5) "pm25" = some 0) ∧
    (finalHigh PM25_BREAKPOINTS < 1000 ∧ calculate_aqi 1000 "pm25" = some 500) := by
  have hg : get_breakpoints "pm25" = some PM25_BREAKPOINTS := get_breakpoints_pm25
  have hfh : finalHigh PM25_BREAKPOINTS < 1000 :=
    of_decide_eq_true (by with_unfolding_all rfl)
  exact ⟨hg,
    ⟨by norm_num,
      (C5_negative_zero_and_saturation "pm25" PM25_BREAKPOINTS hg).1 (-5) (by norm_num)⟩,
    ⟨hfh, (C5_negative_zero_and_saturation "pm25" PM25_BREAKPOINTS hg).2 1000 hfh⟩⟩

/-- C6: `calculate_aqi` returns `none` exactly when the normalised key
(lower-cased, `"."` and `"_"` stripped) is not one of the six supported
pollutants; on supported keys it always returns a value, so it never fails
in any other way. -/
theorem C6_unknown_parameter_none (c : ℚ) (p : String) :
    calculate_aqi c p = none ↔ normalizeParam p ∉ supportedKeys := by
  rw [← get_breakpoints_none_iff]
  constructor
  · intro h
    cases hg : get_breakpoints p with
    | none => rfl
    | some bps =>
        obtain ⟨n, hn⟩ := calculate_aqi_isSome hg c
        rw [h] at hn
        cases hn
  · intro h
    unfold calculate_aqi
    rw [h]

/-- C6 witness: the unsupported key `"xyz"` at concentration 1. -/
theorem C6_witness : calculate_aqi 1 "xyz" = none :=
  (C6_unknown_parameter_none 1 "xyz").mpr
    (of_decide_eq_true (by with_unfolding_all rfl))

/-- C7: `calculate_dominant_aqi` on the empty mapping returns
`(0, "unknown", {})`, and for every mapping the all-indices component
collects exactly the recognised entries, each mapped to its
`calculate_aqi` score, with unrecognised entries silently omitted. -/
theorem C7_all_aqis_exact :
    calculate_dominant_aqi [] = (0, "unknown", []) ∧
    ∀ ms : List (String × ℚ), (calculate_dominant_aqi ms).2.2 =
      ms.filterMap (fun m => (calculate_aqi m.2 m.1).map (fun a => (m.1, a))) := by
  refine ⟨rfl, ?_⟩
  intro ms
  unfold calculate_dominant_aqi
  dsimp only
  rw [dominant_foldl_all ms ([], 0, "unknown")]
  simp

/-- C8: for each of the six keys, the score at concentration 0 exists and
categorises as GOOD, and the score at the top edge of the first (GOOD) row
is exactly 50 — in particular `calculate_aqi 12.0 "pm25" = 50`. -/
theorem C8_good_boundaries :
    ((calculate_aqi 0 "pm25").map get_aqi_category = some AQICategory.GOOD ∧
      calculate_aqi 12 "pm25" = some 50) ∧
    ((calculate_aqi 0 "pm10").map get_aqi_category = some AQICategory.GOOD ∧
      calculate_aqi 54 "pm10" = some 50) ∧
    ((calculate_aqi 0 "o3").map get_aqi_category = some AQICategory.GOOD ∧
      calculate_aqi 54 "o3" = some 50) ∧
    ((calculate_aqi 0 "co").map get_aqi_category = some AQICategory.GOOD ∧
      calculate_aqi 4.4 "co" = some 50) ∧
    ((calculate_aqi 0 "no2").map get_aqi_category = some AQICategory.GOOD ∧
      calculate_aqi 53 "no2" = some 50) ∧
    ((calculate_aqi 0 "so2").map get_aqi_category = some AQICategory.GOOD ∧
      calculate_aqi 35 "so2" = some 50) :=
  ⟨⟨of_decide_eq_true (by with_unfolding_all rfl),
    of_decide_eq_true (by with_unfolding_all rfl)⟩,
   ⟨of_decide_eq_true (by with_unfolding_all rfl),
    of_decide_eq_true (by with_unfolding_all rfl)⟩,
   ⟨of_decide_eq_true (by with_unfolding_all rfl),
    of_decide_eq_true (by with_unfolding_all rfl)⟩,
   ⟨of_decide_eq_true (by with_unfolding_all rfl),
    of_decide_eq_true (by with_unfolding_all rfl)⟩,
   ⟨of_decide_eq_true (by with_unfolding_all rfl),
    of_decide_eq_true (by with_unfolding_all rfl)⟩,
   ⟨of_decide_eq_true (by with_unfolding_all rfl),
    of_decide_eq_true (by with_unfolding_all rfl)⟩⟩

/-- The lower-cased keys of `format_map` in `format_parameter_name`. -/
def formatKeys : List String := ["pm25", "pm2.5", "pm10", "o3", "ozone", "co", "no2", "so2"]

/-- C9: display formatting is total — known keys map case-insensitively
through the table (`"pm25"` to `"PM2.5"`, ozone to a label containing the
subscript-3 character), and every key outside the table echoes back
upper-cased. -/
theorem C9_format_display (p : String) :
    format_parameter_name "pm25" = "PM2.5" ∧
    format_parameter_name "PM25" = "PM2.5" ∧
    '₃' ∈ (format_parameter_name "o3").data ∧
    format_parameter_name "xyz" = "XYZ" ∧
    (strLower p ∉ formatKeys → format_parameter_name p = strUpper p) := by
  refine ⟨of_decide_eq_true (by with_unfolding_all rfl),
    of_decide_eq_true (by with_unfolding_all rfl),
    of_decide_eq_true (by with_unfolding_all rfl),
    of_decide_eq_true (by with_unfolding_all rfl), ?_⟩
  intro h
  simp only [formatKeys] at h
  simp only [format_parameter_name]
  split_ifs <;> simp_all

/-- C9 witness: the fallback branch at the unknown key `"xyz"`. -/
theorem C9_witness :
    strLower "xyz" ∉ formatKeys ∧ format_parameter_name "xyz" = strUpper "xyz" := by
  have h : strLower "xyz" ∉ formatKeys := of_decide_eq_true (by with_unfolding_all rfl)
  exact ⟨h, (C9_format_display "xyz").2.2.2.2 h⟩

/-- C10: every negative index falls through all six band tests onto the
overflow fallback HAZARDOUS, and `get_aqi_description (-1)` carries the
Hazardous label, color, level name and health message. -/
theorem C10_negative_hazardous :
    (∀ n : ℤ, n < 0 → get_aqi_category n = AQICategory.HAZARDOUS) ∧
    get_aqi_description (-1) =
      { aqi := -1, category := "Hazardous", color := "#7E0023", level := "HAZARDOUS",
        health_message := "Health warning of emergency conditions: everyone is more likely to be affected." } := by
  refine ⟨fun n hn => get_aqi_category_negative hn, ?_⟩
  decide

/-- C10 witness: the fallback at index −1. -/
theorem C10_witness : get_aqi_category (-1) = AQICategory.HAZARDOUS :=
  C10_negative_hazardous.1 (-1) (by norm_num)

end Aeris
